import Mathlib

/-!
Verification of the Tranalyzer `rustExample` plugin (`src/lib.rs`).

The plugin's byte-cursor type `SliceReader` lives in the external `t2plugin`
crate and is not part of this repository's sources; it is modelled here from
the specification of the Byte Cursor (spec §4.1).  Everything else
(`extract_phpid`, `extract_tls_sni`, `claim_l4_info`, `on_flow_terminate`)
is a direct shallow embedding of `src/lib.rs`.

Bytes are modelled as `Nat` (with concrete inputs always < 256), byte buffers
as `List Nat`, Rust strings as their UTF-8 byte lists, and `f64` flow
durations as `ℚ`.  The unbounded `loop`/`while` constructs of the TLS parser
are embedded with an explicit fuel argument; the top-level entry points pass
`slice.length + 1` fuel, which is strictly larger than the possible number of
iterations since every iteration of every loop consumes at least one byte of
the slice.
-/

namespace RustExamplePlugin

/-- Modelled from the spec: the `t2plugin::slread::SliceReader` byte cursor
(not part of this repository's sources).  It wraps a byte slice and a current
offset.  Invariant: offset ≤ slice length at all times (spec §4.1). -/
structure SliceReader where
  slice : List Nat
  pos : Nat
deriving DecidableEq, Inhabited

/-- Modelled from the spec: construct a reader over a slice, at offset 0. -/
def SliceReader.new (slice : List Nat) : SliceReader := ⟨slice, 0⟩

/-- The cursor invariant of spec §4.1: offset ≤ slice length. -/
def SliceReader.wf (s : SliceReader) : Prop := s.pos ≤ s.slice.length

instance (s : SliceReader) : Decidable s.wf := by
  unfold SliceReader.wf; infer_instance

/-- Modelled from the spec: `read_u8` consumes one byte and advances the
offset; fails with no result if no byte remains. -/
def SliceReader.readU8 (s : SliceReader) : Option (Nat × SliceReader) :=
  match s.slice.drop s.pos with
  | [] => none
  | b :: _ => some (b, ⟨s.slice, s.pos + 1⟩)

/-- Modelled from the spec: `read_u16` consumes two bytes, big-endian. -/
def SliceReader.readU16 (s : SliceReader) : Option (Nat × SliceReader) :=
  match s.slice.drop s.pos with
  | b0 :: b1 :: _ => some (256 * b0 + b1, ⟨s.slice, s.pos + 2⟩)
  | _ => none

/-- Modelled from the spec: `read_u24` consumes three bytes, big-endian. -/
def SliceReader.readU24 (s : SliceReader) : Option (Nat × SliceReader) :=
  match s.slice.drop s.pos with
  | b0 :: b1 :: b2 :: _ =>
      some (65536 * b0 + 256 * b1 + b2, ⟨s.slice, s.pos + 3⟩)
  | _ => none

/-- Modelled from the spec: `read_bytes(n)` returns a view of the next `n`
bytes; fails if fewer than `n` remain. -/
def SliceReader.readBytes (n : Nat) (s : SliceReader) :
    Option (List Nat × SliceReader) :=
  if s.pos + n ≤ s.slice.length then
    some ((s.slice.drop s.pos).take n, ⟨s.slice, s.pos + n⟩)
  else none

/-- Splits a byte list at its first line terminator `\n` (byte 10):
returns the bytes before it and the bytes after it, or `none` when the list
contains no terminator.  Helper for `readLine`. -/
def lineSplit : List Nat → Option (List Nat × List Nat)
  | [] => none
  | b :: rest =>
    if b = 10 then some ([], rest)
    else (lineSplit rest).map (fun p => (b :: p.1, p.2))

/-- Modelled from the spec: `read_line` returns the bytes up to and excluding
the next line terminator, advancing past it; fails if no terminator is found
before the slice ends. -/
def SliceReader.readLine (s : SliceReader) : Option (List Nat × SliceReader) :=
  match lineSplit (s.slice.drop s.pos) with
  | none => none
  | some (line, _) => some (line, ⟨s.slice, s.pos + line.length + 1⟩)

/-- Modelled from the spec: `skip(n)` advances the offset by `n`, never moving
beyond the slice end (preserving the offset ≤ length invariant).  A skip that
would pass the end stops at the slice end and reports a failure; the plugin
code discards `skip`'s result everywhere, so the failure signal itself is not
modelled, only the offset change. -/
def SliceReader.skip (n : Nat) (s : SliceReader) : SliceReader :=
  ⟨s.slice, min (s.pos + n) s.slice.length⟩

/-- Modelled from the spec: `rewind(to)` resets the offset to a previously
obtained value (absolute seek); fails only if `to` exceeds the slice
length. -/
def SliceReader.rewind (dst : Nat) (s : SliceReader) : Option SliceReader :=
  if dst ≤ s.slice.length then some ⟨s.slice, dst⟩ else none

/-! Basic facts about the cursor primitives: every operation preserves the
backing slice, and every operation that succeeds (and `skip`, always) yields
a state satisfying the offset ≤ length invariant. -/

theorem SliceReader.new_wf (l : List Nat) : (SliceReader.new l).wf := by
  simp [SliceReader.new, SliceReader.wf]

theorem SliceReader.readU8_some {s : SliceReader} {v : Nat} {s' : SliceReader}
    (h : s.readU8 = some (v, s')) :
    s'.slice = s.slice ∧ s'.wf ∧ s'.pos = s.pos + 1 := by
  unfold SliceReader.readU8 at h
  cases hd : s.slice.drop s.pos with
  | nil => rw [hd] at h; exact absurd h (by simp)
  | cons b t =>
    rw [hd] at h
    simp only [Option.some.injEq, Prod.mk.injEq] at h
    obtain ⟨-, h2⟩ := h
    subst h2
    refine ⟨rfl, ?_, rfl⟩
    have hlen : s.slice.length - s.pos = t.length + 1 := by
      have := congrArg List.length hd
      simpa using this
    simp only [SliceReader.wf]
    omega

theorem SliceReader.readU16_some {s : SliceReader} {v : Nat} {s' : SliceReader}
    (h : s.readU16 = some (v, s')) :
    s'.slice = s.slice ∧ s'.wf ∧ s'.pos = s.pos + 2 := by
  unfold SliceReader.readU16 at h
  cases hd : s.slice.drop s.pos with
  | nil => rw [hd] at h; exact absurd h (by simp)
  | cons b0 t0 =>
    cases t0 with
    | nil => rw [hd] at h; exact absurd h (by simp)
    | cons b1 t1 =>
      rw [hd] at h
      simp only [Option.some.injEq, Prod.mk.injEq] at h
      obtain ⟨-, h2⟩ := h
      subst h2
      refine ⟨rfl, ?_, rfl⟩
      have hlen : s.slice.length - s.pos = t1.length + 2 := by
        have := congrArg List.length hd
        simpa using this
      simp only [SliceReader.wf]
      omega

theorem SliceReader.readU24_some {s : SliceReader} {v : Nat} {s' : SliceReader}
    (h : s.readU24 = some (v, s')) :
    s'.slice = s.slice ∧ s'.wf ∧ s'.pos = s.pos + 3 := by
  unfold SliceReader.readU24 at h
  cases hd : s.slice.drop s.pos with
  | nil => rw [hd] at h; exact absurd h (by simp)
  | cons b0 t0 =>
    cases t0 with
    | nil => rw [hd] at h; exact absurd h (by simp)
    | cons b1 t1 =>
      cases t1 with
      | nil => rw [hd] at h; exact absurd h (by simp)
      | cons b2 t2 =>
        rw [hd] at h
        simp only [Option.some.injEq, Prod.mk.injEq] at h
        obtain ⟨-, h2⟩ := h
        subst h2
        refine ⟨rfl, ?_, rfl⟩
        have hlen : s.slice.length - s.pos = t2.length + 3 := by
          have := congrArg List.length hd
          simpa using this
        simp only [SliceReader.wf]
        omega

theorem SliceReader.readBytes_some {n : Nat} {s : SliceReader}
    {bs : List Nat} {s' : SliceReader} (h : s.readBytes n = some (bs, s')) :
    s'.slice = s.slice ∧ s'.wf ∧ s'.pos = s.pos + n ∧
      bs = (s.slice.drop s.pos).take n ∧ s.pos + n ≤ s.slice.length ∧
      bs.length = n := by
  unfold SliceReader.readBytes at h
  by_cases hle : s.pos + n ≤ s.slice.length
  · rw [if_pos hle] at h
    simp only [Option.some.injEq, Prod.mk.injEq] at h
    obtain ⟨h1, h2⟩ := h
    subst h2
    refine ⟨rfl, by simpa [SliceReader.wf] using hle, rfl, h1.symm, hle, ?_⟩
    rw [← h1]
    simp
    omega
  · rw [if_neg hle] at h
    exact absurd h (by simp)

theorem lineSplit_some {l a b : List Nat} (h : lineSplit l = some (a, b)) :
    l = a ++ 10 :: b := by
  induction l generalizing a b with
  | nil => exact absurd h (by simp [lineSplit])
  | cons x t ih =>
    unfold lineSplit at h
    by_cases hx : x = 10
    · rw [if_pos hx] at h
      simp only [Option.some.injEq, Prod.mk.injEq] at h
      obtain ⟨h1, h2⟩ := h
      subst h1; subst h2; subst hx
      simp
    · rw [if_neg hx] at h
      cases hrec : lineSplit t with
      | none => rw [hrec] at h; exact absurd h (by simp)
      | some p =>
        rw [hrec] at h
        cases p with
        | mk pa pb =>
          simp only [Option.map_some', Option.some.injEq, Prod.mk.injEq] at h
          obtain ⟨h1, h2⟩ := h
          subst h1; subst h2
          rw [ih hrec]
          rfl

theorem SliceReader.readLine_some {s : SliceReader} {l : List Nat}
    {s' : SliceReader} (h : s.readLine = some (l, s')) :
    s'.slice = s.slice ∧ s'.wf ∧ s'.pos = s.pos + l.length + 1 := by
  unfold SliceReader.readLine at h
  cases hls : lineSplit (s.slice.drop s.pos) with
  | none => rw [hls] at h; exact absurd h (by simp)
  | some p =>
    rw [hls] at h
    cases p with
    | mk a b =>
      simp only [Option.some.injEq, Prod.mk.injEq] at h
      obtain ⟨h1, h2⟩ := h
      subst h1; subst h2
      refine ⟨rfl, ?_, rfl⟩
      have hsplit := lineSplit_some hls
      have hlen : s.slice.length - s.pos = a.length + (b.length + 1) := by
        have := congrArg List.length hsplit
        simpa using this
      simp only [SliceReader.wf]
      omega

theorem SliceReader.skip_slice (n : Nat) (s : SliceReader) :
    (s.skip n).slice = s.slice := rfl

theorem SliceReader.skip_wf (n : Nat) (s : SliceReader) : (s.skip n).wf := by
  simp [SliceReader.skip, SliceReader.wf]

theorem SliceReader.rewind_self {s : SliceReader} (h : s.wf) :
    s.rewind s.pos = some s := by
  unfold SliceReader.rewind
  rw [if_pos (show s.pos ≤ s.slice.length from h)]

/-! ## The HTTP cookie extractor (`extract_phpid`, src/lib.rs lines 78-115) -/

/-- UTF-8 bytes of a string literal (how Rust byte-string prefixes such as
`b"GET "` and extracted `&str` values are modelled). -/
def strBytes (s : String) : List Nat := s.toList.map Char.toNat

/-- Whether a byte is ASCII whitespace, as used by the `trim` of
`t2plugin::slread::TrimBytes`: space, tab, newline, form feed, carriage
return. -/
def isWsByte (b : Nat) : Bool := b = 32 || b = 9 || b = 10 || b = 12 || b = 13

/-- Modelled from the spec: the `TrimBytes::trim` of the `t2plugin` crate
(not part of this repository's sources) removes the surrounding ASCII
whitespace of a byte slice. -/
def trimBytes (l : List Nat) : List Nat :=
  ((l.dropWhile isWsByte).reverse.dropWhile isWsByte).reverse

/-- Splits a byte list on every `;` (byte 59), keeping empty pieces, as
Rust's `slice::split(|&e| e == b';')` does (src/lib.rs line 102). -/
def splitSemi : List Nat → List (List Nat)
  | [] => [[]]
  | b :: rest =>
    if b = 59 then [] :: splitSemi rest
    else
      match splitSemi rest with
      | [] => [[b]]
      | p :: ps => (b :: p) :: ps

/-- Simplified UTF-8 validity used to model `str::from_utf8`
(src/lib.rs line 110): checks continuation bytes and the exact ranges that
exclude overlong encodings and surrogates. -/
def isValidUtf8 : List Nat → Bool
  | [] => true
  | b :: l =>
    if b ≤ 0x7F then isValidUtf8 l
    else if 0xC2 ≤ b && b ≤ 0xDF then
      match l with
      | b1 :: l1 => (0x80 ≤ b1 && b1 ≤ 0xBF) && isValidUtf8 l1
      | [] => false
    else if b = 0xE0 then
      match l with
      | b1 :: b2 :: l2 =>
        (0xA0 ≤ b1 && b1 ≤ 0xBF) && ((0x80 ≤ b2 && b2 ≤ 0xBF) && isValidUtf8 l2)
      | _ => false
    else if (0xE1 ≤ b && b ≤ 0xEC) || b = 0xEE || b = 0xEF then
      match l with
      | b1 :: b2 :: l2 =>
        (0x80 ≤ b1 && b1 ≤ 0xBF) && ((0x80 ≤ b2 && b2 ≤ 0xBF) && isValidUtf8 l2)
      | _ => false
    else if b = 0xED then
      match l with
      | b1 :: b2 :: l2 =>
        (0x80 ≤ b1 && b1 ≤ 0x9F) && ((0x80 ≤ b2 && b2 ≤ 0xBF) && isValidUtf8 l2)
      | _ => false
    else if b = 0xF0 then
      match l with
      | b1 :: b2 :: b3 :: l3 =>
        (0x90 ≤ b1 && b1 ≤ 0xBF) && ((0x80 ≤ b2 && b2 ≤ 0xBF) &&
          ((0x80 ≤ b3 && b3 ≤ 0xBF) && isValidUtf8 l3))
      | _ => false
    else if 0xF1 ≤ b && b ≤ 0xF3 then
      match l with
      | b1 :: b2 :: b3 :: l3 =>
        (0x80 ≤ b1 && b1 ≤ 0xBF) && ((0x80 ≤ b2 && b2 ≤ 0xBF) &&
          ((0x80 ≤ b3 && b3 ≤ 0xBF) && isValidUtf8 l3))
      | _ => false
    else if b = 0xF4 then
      match l with
      | b1 :: b2 :: b3 :: l3 =>
        (0x80 ≤ b1 && b1 ≤ 0x8F) && ((0x80 ≤ b2 && b2 ≤ 0xBF) &&
          ((0x80 ≤ b3 && b3 ≤ 0xBF) && isValidUtf8 l3))
      | _ => false
    else false

/-- The header-line classification of src/lib.rs lines 92-100: `Cookie: `
gives origin flag `false` and prefix length 8, `Set-Cookie: ` gives origin
flag `true` and prefix length 12, anything else is not a cookie header. -/
def cookieHdr (line : List Nat) : Option (Bool × Nat) :=
  if (strBytes "Cookie: ").isPrefixOf line then some (false, 8)
  else if (strBytes "Set-Cookie: ").isPrefixOf line then some (true, 12)
  else none

/-- The `for cookie in line[len ..].split(...)` loop of src/lib.rs
lines 102-111: trims each piece and returns the suffix after `PHPSESSID=` of
the first piece carrying that prefix (before UTF-8 decoding). -/
def scanCookies : List (List Nat) → Option (List Nat)
  | [] => none
  | c :: rest =>
    let c' := trimBytes c
    if (strBytes "PHPSESSID=").isPrefixOf c' then some (c'.drop 10)
    else scanCookies rest

/-- The `while let Ok(line) = slr.read_line()` header loop of src/lib.rs
lines 87-113, with explicit fuel.  Returns the extracted record (if any)
together with the reader state the Rust `&mut SliceReader` is left in. -/
def phpidLoop : Nat → SliceReader → Option (Bool × List Nat) × SliceReader
  | 0, s => (none, s)
  | fuel + 1, s =>
    match s.readLine with
    | none => (none, s)
    | some (line0, s1) =>
      if (trimBytes line0).length = 0 then (none, s1)
      else
        match cookieHdr (trimBytes line0) with
        | none => phpidLoop fuel s1
        | some (sc, n) =>
          match scanCookies (splitSemi ((trimBytes line0).drop n)) with
          | none => (none, s1)
          | some phpid =>
            if isValidUtf8 phpid then (some (sc, phpid), s1) else (none, s1)

/-- Embedding of `extract_phpid` (src/lib.rs lines 78-115).  The first line
must begin with `GET `, `POST ` or `HTTP/` (untrimmed, line 82); then the
header lines are scanned by `phpidLoop`.  The returned reader state models
the final state of the Rust `&mut SliceReader`. -/
def extract_phpid (s : SliceReader) : Option (Bool × List Nat) × SliceReader :=
  match s.readLine with
  | none => (none, s)
  | some (line, s1) =>
    if (strBytes "GET ").isPrefixOf line || (strBytes "POST ").isPrefixOf line
        || (strBytes "HTTP/").isPrefixOf line then
      phpidLoop (s1.slice.length + 1) s1
    else (none, s1)

theorem phpidLoop_wf (fuel : Nat) (s : SliceReader) (h : s.wf) :
    (phpidLoop fuel s).2.wf ∧ (phpidLoop fuel s).2.slice = s.slice := by
  induction fuel generalizing s with
  | zero => exact ⟨h, rfl⟩
  | succ fuel ih =>
    unfold phpidLoop
    cases hrl : s.readLine with
    | none => exact ⟨h, rfl⟩
    | some p =>
      obtain ⟨line0, s1⟩ := p
      obtain ⟨hsl, hwf, -⟩ := SliceReader.readLine_some hrl
      dsimp only
      by_cases h0 : (trimBytes line0).length = 0
      · rw [if_pos h0]
        exact ⟨hwf, hsl⟩
      · rw [if_neg h0]
        cases hch : cookieHdr (trimBytes line0) with
        | none =>
          dsimp only
          obtain ⟨hw2, hs2⟩ := ih s1 hwf
          exact ⟨hw2, hs2.trans hsl⟩
        | some q =>
          obtain ⟨sc, n⟩ := q
          dsimp only
          cases hsc : scanCookies (splitSemi ((trimBytes line0).drop n)) with
          | none => exact ⟨hwf, hsl⟩
          | some phpid =>
            dsimp only
            by_cases hu : isValidUtf8 phpid = true
            · rw [if_pos hu]
              exact ⟨hwf, hsl⟩
            · rw [if_neg hu]
              exact ⟨hwf, hsl⟩

theorem extract_phpid_wf (s : SliceReader) (h : s.wf) :
    (extract_phpid s).2.wf ∧ (extract_phpid s).2.slice = s.slice := by
  unfold extract_phpid
  cases hrl : s.readLine with
  | none => exact ⟨h, rfl⟩
  | some p =>
    obtain ⟨line, s1⟩ := p
    obtain ⟨hsl, hwf, -⟩ := SliceReader.readLine_some hrl
    dsimp only
    by_cases hcond : ((strBytes "GET ").isPrefixOf line
        || (strBytes "POST ").isPrefixOf line
        || (strBytes "HTTP/").isPrefixOf line) = true
    · rw [if_pos hcond]
      obtain ⟨hw2, hs2⟩ := phpidLoop_wf (s1.slice.length + 1) s1 hwf
      exact ⟨hw2, hs2.trans hsl⟩
    · rw [if_neg hcond]
      exact ⟨hwf, hsl⟩

/-! ## The TLS SNI extractor (`extract_tls_sni`, src/lib.rs lines 117-187) -/

/-- The supported TLS versions enum (src/lib.rs lines 46-65). -/
inductive TlsVersion where
  | UNKNOWN | SSLv3 | TLSv1 | TLSv11 | TLSv12
deriving DecidableEq

/-- Embedding of `TlsVersion::from_u16` (src/lib.rs lines 56-64). -/
def TlsVersion.from_u16 (val : Nat) : TlsVersion :=
  if val = 0x0300 then .SSLv3
  else if val = 0x0301 then .TLSv1
  else if val = 0x0302 then .TLSv11
  else if val = 0x0303 then .TLSv12
  else .UNKNOWN

/-- Outcome of one of the two inner `while` loops of `extract_tls_sni`: a
found server name (immediate return), a hard failure (`return None` for the
whole function), or a normal loop exit (control falls through to the
enclosing loop). -/
inductive TlsLoopRes where
  | found : List Nat → TlsLoopRes
  | abort : TlsLoopRes
  | through : TlsLoopRes
deriving DecidableEq

/-- The extensions `while slr.pos() < extensions_end` loop of src/lib.rs
lines 170-184, with explicit fuel. -/
def extLoop : Nat → Nat → SliceReader → TlsLoopRes × SliceReader
  | 0, _, s => (.abort, s)
  | fuel + 1, extEnd, s =>
    if s.pos < extEnd then
      match s.readU16 with
      | none => (.abort, s)
      | some (extType, s1) =>
        match s1.readU16 with
        | none => (.abort, s1)
        | some (len, s2) =>
          if extType ≠ 0x0000 then extLoop fuel extEnd (s2.skip len)
          else
            match (s2.skip 3).readU16 with
            | none => (.abort, s2.skip 3)
            | some (nlen, s3) =>
              match s3.readBytes nlen with
              | none => (.abort, s3)
              | some (name, s4) =>
                if isValidUtf8 name then (.found name, s4) else (.abort, s4)
    else (.through, s)

/-- The handshake `while slr.pos() < handshakes_end` loop of src/lib.rs
lines 142-185, with explicit fuel. -/
def hsLoop : Nat → Nat → SliceReader → TlsLoopRes × SliceReader
  | 0, _, s => (.abort, s)
  | fuel + 1, hsEnd, s =>
    if s.pos < hsEnd then
      match s.readU8 with
      | none => (.abort, s)
      | some (hsType, s1) =>
        match s1.readU24 with
        | none => (.abort, s1)
        | some (len, s2) =>
          if hsType ≠ 1 then hsLoop fuel hsEnd (s2.skip len)
          else
            match s2.readU16 with
            | none => (.abort, s2)
            | some (ver, s3) =>
              if TlsVersion.from_u16 ver = .UNKNOWN then (.abort, s3)
              else
                match (s3.skip 32).readU8 with
                | none => (.abort, s3.skip 32)
                | some (sidLen, s4) =>
                  match (s4.skip sidLen).readU16 with
                  | none => (.abort, s4.skip sidLen)
                  | some (csLen, s5) =>
                    match (s5.skip csLen).readU8 with
                    | none => (.abort, s5.skip csLen)
                    | some (compLen, s6) =>
                      match (s6.skip compLen).readU16 with
                      | none => (.abort, s6.skip compLen)
                      | some (extLen, s7) =>
                        match extLoop fuel (s7.pos + extLen) s7 with
                        | (.found name, s8) => (.found name, s8)
                        | (.abort, s8) => (.abort, s8)
                        | (.through, s8) => hsLoop fuel hsEnd s8
    else (.through, s)

/-- The outer `loop` over TLS records of src/lib.rs lines 125-186, with
explicit fuel.  `none` is the Rust `return None`. -/
def recordLoop : Nat → SliceReader → Option (List Nat) × SliceReader
  | 0, s => (none, s)
  | fuel + 1, s =>
    match s.readU8 with
    | none => (none, s)
    | some (recordType, s1) =>
      match s1.readU16 with
      | none => (none, s1)
      | some (ver, s2) =>
        if TlsVersion.from_u16 ver = .UNKNOWN then (none, s2)
        else
          match s2.readU16 with
          | none => (none, s2)
          | some (len, s3) =>
            if recordType ≠ 22 then recordLoop fuel (s3.skip len)
            else
              match hsLoop fuel (s3.pos + len) s3 with
              | (.found name, s4) => (some name, s4)
              | (.abort, s4) => (none, s4)
              | (.through, s4) => recordLoop fuel s4

/-- Embedding of `extract_tls_sni` (src/lib.rs lines 117-187).  The returned
reader state models the final state of the Rust `&mut SliceReader`. -/
def extract_tls_sni (s : SliceReader) : Option (List Nat) × SliceReader :=
  recordLoop (s.slice.length + 1) s

/-- A server name that is a genuine, fully in-bounds contiguous subslice of
the packet payload and valid UTF-8 — what "no partial or garbled hostname"
means for the extractor's result. -/
def sniFromSlice (slice name : List Nat) : Prop :=
  ∃ i, i + name.length ≤ slice.length ∧
    name = (slice.drop i).take name.length ∧ isValidUtf8 name = true

theorem extLoop_spec (fuel extEnd : Nat) (s : SliceReader) (h : s.wf) :
    (extLoop fuel extEnd s).2.wf ∧ (extLoop fuel extEnd s).2.slice = s.slice ∧
    (∀ name, (extLoop fuel extEnd s).1 = .found name →
      sniFromSlice s.slice name) := by
  induction fuel generalizing extEnd s with
  | zero => exact ⟨h, rfl, by intro name hn; exact absurd hn (by simp [extLoop])⟩
  | succ fuel ih =>
    unfold extLoop
    by_cases hlt : s.pos < extEnd
    · rw [if_pos hlt]
      cases h1 : s.readU16 with
      | none => exact ⟨h, rfl, by intro name hn; exact absurd hn (by simp)⟩
      | some p1 =>
        obtain ⟨extType, s1⟩ := p1
        obtain ⟨hs1, hw1, -⟩ := SliceReader.readU16_some h1
        dsimp only
        cases h2 : s1.readU16 with
        | none => exact ⟨hw1, hs1, by intro name hn; exact absurd hn (by simp)⟩
        | some p2 =>
          obtain ⟨len, s2⟩ := p2
          obtain ⟨hs2, hw2, -⟩ := SliceReader.readU16_some h2
          dsimp only
          by_cases ht : extType ≠ 0x0000
          · rw [if_pos ht]
            obtain ⟨ha, hb, hc⟩ := ih extEnd (s2.skip len) (SliceReader.skip_wf len s2)
            refine ⟨ha, ?_, ?_⟩
            · rw [hb, SliceReader.skip_slice, hs2, hs1]
            · intro name hn
              have := hc name hn
              rwa [SliceReader.skip_slice, hs2, hs1] at this
          · rw [if_neg ht]
            cases h3 : (s2.skip 3).readU16 with
            | none =>
              exact ⟨SliceReader.skip_wf 3 s2,
                by rw [SliceReader.skip_slice, hs2, hs1],
                by intro name hn; exact absurd hn (by simp)⟩
            | some p3 =>
              obtain ⟨nlen, s3⟩ := p3
              obtain ⟨hs3, hw3, -⟩ := SliceReader.readU16_some h3
              dsimp only
              cases h4 : s3.readBytes nlen with
              | none =>
                exact ⟨hw3,
                  by rw [hs3, SliceReader.skip_slice, hs2, hs1],
                  by intro name hn; exact absurd hn (by simp)⟩
              | some p4 =>
                obtain ⟨name0, s4⟩ := p4
                obtain ⟨hs4, hw4, -, hbytes, hle, hlen0⟩ :=
                  SliceReader.readBytes_some h4
                dsimp only
                have hslices : s3.slice = s.slice := by
                  rw [hs3, SliceReader.skip_slice, hs2, hs1]
                by_cases hu : isValidUtf8 name0 = true
                · rw [if_pos hu]
                  refine ⟨hw4, by rw [hs4, hslices], ?_⟩
                  intro name hn
                  simp only [TlsLoopRes.found.injEq] at hn
                  subst hn
                  refine ⟨s3.pos, ?_, ?_, hu⟩
                  · rw [hlen0, ← hslices]; exact hle
                  · rw [hlen0, ← hslices]; exact hbytes
                · rw [if_neg hu]
                  exact ⟨hw4, by rw [hs4, hslices],
                    by intro name hn; exact absurd hn (by simp)⟩
    · rw [if_neg hlt]
      exact ⟨h, rfl, by intro name hn; exact absurd hn (by simp)⟩

theorem hsLoop_spec (fuel hsEnd : Nat) (s : SliceReader) (h : s.wf) :
    (hsLoop fuel hsEnd s).2.wf ∧ (hsLoop fuel hsEnd s).2.slice = s.slice ∧
    (∀ name, (hsLoop fuel hsEnd s).1 = .found name →
      sniFromSlice s.slice name) := by
  induction fuel generalizing hsEnd s with
  | zero => exact ⟨h, rfl, by intro name hn; exact absurd hn (by simp [hsLoop])⟩
  | succ fuel ih =>
    unfold hsLoop
    by_cases hlt : s.pos < hsEnd
    · rw [if_pos hlt]
      cases h1 : s.readU8 with
      | none => exact ⟨h, rfl, by intro name hn; exact absurd hn (by simp)⟩
      | some p1 =>
        obtain ⟨hsType, s1⟩ := p1
        obtain ⟨hs1, hw1, -⟩ := SliceReader.readU8_some h1
        dsimp only
        cases h2 : s1.readU24 with
        | none => exact ⟨hw1, hs1, by intro name hn; exact absurd hn (by simp)⟩
        | some p2 =>
          obtain ⟨len, s2⟩ := p2
          obtain ⟨hs2, hw2, -⟩ := SliceReader.readU24_some h2
          dsimp only
          by_cases ht : hsType ≠ 1
          · rw [if_pos ht]
            obtain ⟨ha, hb, hc⟩ := ih hsEnd (s2.skip len) (SliceReader.skip_wf len s2)
            refine ⟨ha, ?_, ?_⟩
            · rw [hb, SliceReader.skip_slice, hs2, hs1]
            · intro name hn
              have := hc name hn
              rwa [SliceReader.skip_slice, hs2, hs1] at this
          · rw [if_neg ht]
            cases h3 : s2.readU16 with
            | none =>
              exact ⟨hw2, by rw [hs2, hs1],
                by intro name hn; exact absurd hn (by simp)⟩
            | some p3 =>
              obtain ⟨ver, s3⟩ := p3
              obtain ⟨hs3, hw3, -⟩ := SliceReader.readU16_some h3
              dsimp only
              have hslice3 : s3.slice = s.slice := by rw [hs3, hs2, hs1]
              by_cases hv : TlsVersion.from_u16 ver = TlsVersion.UNKNOWN
              · rw [if_pos hv]
                exact ⟨hw3, hslice3,
                  by intro name hn; exact absurd hn (by simp)⟩
              · rw [if_neg hv]
                cases h4 : (s3.skip 32).readU8 with
                | none =>
                  exact ⟨SliceReader.skip_wf 32 s3,
                    by rw [SliceReader.skip_slice, hslice3],
                    by intro name hn; exact absurd hn (by simp)⟩
                | some p4 =>
                  obtain ⟨sidLen, s4⟩ := p4
                  obtain ⟨hs4, hw4, -⟩ := SliceReader.readU8_some h4
                  dsimp only
                  have hslice4 : s4.slice = s.slice := by
                    rw [hs4, SliceReader.skip_slice, hslice3]
                  cases h5 : (s4.skip sidLen).readU16 with
                  | none =>
                    exact ⟨SliceReader.skip_wf sidLen s4,
                      by rw [SliceReader.skip_slice, hslice4],
                      by intro name hn; exact absurd hn (by simp)⟩
                  | some p5 =>
                    obtain ⟨csLen, s5⟩ := p5
                    obtain ⟨hs5, hw5, -⟩ := SliceReader.readU16_some h5
                    dsimp only
                    have hslice5 : s5.slice = s.slice := by
                      rw [hs5, SliceReader.skip_slice, hslice4]
                    cases h6 : (s5.skip csLen).readU8 with
                    | none =>
                      exact ⟨SliceReader.skip_wf csLen s5,
                        by rw [SliceReader.skip_slice, hslice5],
                        by intro name hn; exact absurd hn (by simp)⟩
                    | some p6 =>
                      obtain ⟨compLen, s6⟩ := p6
                      obtain ⟨hs6, hw6, -⟩ := SliceReader.readU8_some h6
                      dsimp only
                      have hslice6 : s6.slice = s.slice := by
                        rw [hs6, SliceReader.skip_slice, hslice5]
                      cases h7 : (s6.skip compLen).readU16 with
                      | none =>
                        exact ⟨SliceReader.skip_wf compLen s6,
                          by rw [SliceReader.skip_slice, hslice6],
                          by intro name hn; exact absurd hn (by simp)⟩
                      | some p7 =>
                        obtain ⟨extLen, s7⟩ := p7
                        obtain ⟨hs7, hw7, -⟩ := SliceReader.readU16_some h7
                        dsimp only
                        have hslice7 : s7.slice = s.slice := by
                          rw [hs7, SliceReader.skip_slice, hslice6]
                        obtain ⟨he1, he2, he3⟩ :=
                          extLoop_spec fuel (s7.pos + extLen) s7 hw7
                        cases h8 : extLoop fuel (s7.pos + extLen) s7 with
                        | mk r8 s8 =>
                          rw [h8] at he1 he2 he3
                          cases r8 with
                          | found name8 =>
                            dsimp only
                            refine ⟨he1, by rw [he2, hslice7], ?_⟩
                            intro name hn
                            simp only [TlsLoopRes.found.injEq] at hn
                            subst hn
                            have := he3 name8 rfl
                            rwa [hslice7] at this
                          | abort =>
                            exact ⟨he1, by rw [he2, hslice7],
                              by intro name hn; exact absurd hn (by simp)⟩
                          | through =>
                            dsimp only
                            obtain ⟨ha, hb, hc⟩ := ih hsEnd s8 he1
                            refine ⟨ha, by rw [hb, he2, hslice7], ?_⟩
                            intro name hn
                            have := hc name hn
                            rwa [he2, hslice7] at this
    · rw [if_neg hlt]
      exact ⟨h, rfl, by intro name hn; exact absurd hn (by simp)⟩

theorem recordLoop_spec (fuel : Nat) (s : SliceReader) (h : s.wf) :
    (recordLoop fuel s).2.wf ∧ (recordLoop fuel s).2.slice = s.slice ∧
    (∀ name, (recordLoop fuel s).1 = some name →
      sniFromSlice s.slice name) := by
  induction fuel generalizing s with
  | zero =>
    exact ⟨h, rfl, by intro name hn; exact absurd hn (by simp [recordLoop])⟩
  | succ fuel ih =>
    unfold recordLoop
    cases h1 : s.readU8 with
    | none => exact ⟨h, rfl, by intro name hn; exact absurd hn (by simp)⟩
    | some p1 =>
      obtain ⟨recordType, s1⟩ := p1
      obtain ⟨hs1, hw1, -⟩ := SliceReader.readU8_some h1
      dsimp only
      cases h2 : s1.readU16 with
      | none => exact ⟨hw1, hs1, by intro name hn; exact absurd hn (by simp)⟩
      | some p2 =>
        obtain ⟨ver, s2⟩ := p2
        obtain ⟨hs2, hw2, -⟩ := SliceReader.readU16_some h2
        dsimp only
        have hslice2 : s2.slice = s.slice := by rw [hs2, hs1]
        by_cases hv : TlsVersion.from_u16 ver = TlsVersion.UNKNOWN
        · rw [if_pos hv]
          exact ⟨hw2, hslice2, by intro name hn; exact absurd hn (by simp)⟩
        · rw [if_neg hv]
          cases h3 : s2.readU16 with
          | none =>
            exact ⟨hw2, hslice2, by intro name hn; exact absurd hn (by simp)⟩
          | some p3 =>
            obtain ⟨len, s3⟩ := p3
            obtain ⟨hs3, hw3, -⟩ := SliceReader.readU16_some h3
            dsimp only
            have hslice3 : s3.slice = s.slice := by rw [hs3, hslice2]
            by_cases ht : recordType ≠ 22
            · rw [if_pos ht]
              obtain ⟨ha, hb, hc⟩ := ih (s3.skip len) (SliceReader.skip_wf len s3)
              refine ⟨ha, by rw [hb, SliceReader.skip_slice, hslice3], ?_⟩
              intro name hn
              have := hc name hn
              rwa [SliceReader.skip_slice, hslice3] at this
            · rw [if_neg ht]
              obtain ⟨hh1, hh2, hh3⟩ := hsLoop_spec fuel (s3.pos + len) s3 hw3
              cases h4 : hsLoop fuel (s3.pos + len) s3 with
              | mk r4 s4 =>
                rw [h4] at hh1 hh2 hh3
                cases r4 with
                | found name4 =>
                  dsimp only
                  refine ⟨hh1, by rw [hh2, hslice3], ?_⟩
                  intro name hn
                  simp only [Option.some.injEq] at hn
                  subst hn
                  have := hh3 name4 rfl
                  rwa [hslice3] at this
                | abort =>
                  exact ⟨hh1, by rw [hh2, hslice3],
                    by intro name hn; exact absurd hn (by simp)⟩
                | through =>
                  dsimp only
                  obtain ⟨ha, hb, hc⟩ := ih s4 hh1
                  refine ⟨ha, by rw [hb, hh2, hslice3], ?_⟩
                  intro name hn
                  have := hc name hn
                  rwa [hh2, hslice3] at this

theorem extract_tls_sni_spec (s : SliceReader) (h : s.wf) :
    (extract_tls_sni s).2.wf ∧ (extract_tls_sni s).2.slice = s.slice ∧
    (∀ name, (extract_tls_sni s).1 = some name →
      sniFromSlice s.slice name) :=
  recordLoop_spec (s.slice.length + 1) s h

/-! ## The Flow Aggregator (`claim_l4_info` / `on_flow_terminate`,
src/lib.rs lines 192-268) -/

/-- The per-flow plugin state (src/lib.rs lines 32-41).  The `HashSet` of
cookie records is modelled as a duplicate-free list, the byte counter as a
`Nat` reduced modulo 2^64 (Rust `u64` wrapping), the SNI `String` as its
UTF-8 byte list (`[]` is the empty string). -/
structure RustExample where
  byte_count : Nat
  php_ids : List (Bool × List Nat)
  tls_sni : List Nat
deriving DecidableEq

/-- Embedding of `RustExample::new` (src/lib.rs lines 193-199). -/
def RustExample.new : RustExample := ⟨0, [], []⟩

/-- The `HashSet::insert` of src/lib.rs line 230: set-semantics insertion,
keyed on the full `(origin, value)` pair.  The position of a new element in
the list is irrelevant (hash-set iteration order is arbitrary). -/
def insertSet (x : Bool × List Nat) (l : List (Bool × List Nat)) :
    List (Bool × List Nat) :=
  if x ∈ l then l else x :: l

/-- The fields the per-packet hook reads from `t2plugin::nethdr::Packet`:
the on-wire length, the snapped layer-7 length, the layer-4 protocol tag and
the layer-7 payload bytes (`packet.l7_header()`). -/
structure Packet where
  packet_raw_len : Nat
  snap_l7_len : Nat
  l4_type : Nat
  l7 : List Nat
deriving DecidableEq

/-- `L4Type::TCP as u8` is the IP protocol number of TCP. -/
def L4Type.TCP : Nat := 6

/-- The `Flow` data the termination hook reads: `flow.duration()` in
seconds, an `f64` modelled as a rational. -/
structure Flow where
  duration : ℚ

/-- Lines 226-235 of src/lib.rs: build a `SliceReader` over the payload,
run `extract_phpid`, then execute `slr.rewind(slr.pos()).unwrap()`.  The
result pairs the extracted cookie record with the reader state handed to the
TLS extractor. -/
def httpThenRewind (payload : List Nat) :
    Option (Bool × List Nat) × SliceReader :=
  let pr := extract_phpid (SliceReader.new payload)
  (pr.1, (pr.2.rewind pr.2.pos).get!)

/-- Embedding of the per-packet hook `claim_l4_info`
(src/lib.rs lines 219-244). -/
def claim_l4_info (self : RustExample) (packet : Packet) : RustExample :=
  let self1 : RustExample :=
    { self with byte_count := (self.byte_count + packet.packet_raw_len) % 2 ^ 64 }
  if 0 < packet.snap_l7_len ∧ packet.l4_type = L4Type.TCP then
    let pr := httpThenRewind packet.l7
    let self2 : RustExample :=
      match pr.1 with
      | some sc_id => { self1 with php_ids := insertSet sc_id self1.php_ids }
      | none => self1
    if self2.tls_sni.length = 0 then
      match (extract_tls_sni pr.2).1 with
      | some sni => { self2 with tls_sni := sni }
      | none => self2
    else self2
  else self1

/-- One emitted output value: `output_num` on an `f64`, on a `u32` count
prefix or on a `u8` flag, or `output_string`. -/
inductive Out where
  | num : ℚ → Out
  | u32 : Nat → Out
  | u8 : Nat → Out
  | str : List Nat → Out
deriving DecidableEq

/-- Embedding of the flow-termination hook `on_flow_terminate`
(src/lib.rs lines 246-267): the three columns in declared order — the
throughput, the count-prefixed cookie records, the SNI string. -/
def on_flow_terminate (self : RustExample) (flow : Flow) : List Out :=
  (if 0 < flow.duration then Out.num ((self.byte_count : ℚ) / flow.duration)
   else Out.num 0)
  :: Out.u32 self.php_ids.length
  :: (self.php_ids.flatMap
        (fun p => [Out.u8 (if p.1 then 1 else 0), Out.str p.2])
      ++ [Out.str self.tls_sni])

/-! ## Concrete test vectors -/

/-- A well-formed TLS record (type 22, version 0x0301) holding one
ClientHello (version 0x0303) whose only extension is a `server_name` for
`example.com`.  No byte of the buffer equals 10, so `extract_phpid`'s
`read_line` fails without moving the cursor. -/
def tlsBufA : List Nat :=
  [22, 3, 1, 0, 66] ++ [1, 0, 0, 62] ++ [3, 3] ++ List.replicate 32 7 ++
  [0] ++ [0, 2, 0, 53] ++ [1, 0] ++ [0, 20] ++
  [0, 0, 0, 16] ++ [0, 14, 0] ++ [0, 11] ++ strBytes "example.com"

/-- Like `tlsBufA` but carrying the `server_name` `other.org`; again no
byte equals 10. -/
def tlsBufB : List Nat :=
  [22, 3, 1, 0, 64] ++ [1, 0, 0, 60] ++ [3, 3] ++ List.replicate 32 7 ++
  [0] ++ [0, 2, 0, 53] ++ [1, 0] ++ [0, 18] ++
  [0, 0, 0, 14] ++ [0, 12, 0] ++ [0, 9] ++ strBytes "other.org"

/-- Like `tlsBufA` but with cipher-suite bytes `[0, 10]`: byte 10 (`\n`)
occurs at index 47, so `extract_phpid`'s first `read_line` succeeds and
leaves the cursor at offset 48. -/
def tlsBufBadRewind : List Nat :=
  [22, 3, 1, 0, 66] ++ [1, 0, 0, 62] ++ [3, 3] ++ List.replicate 32 7 ++
  [0] ++ [0, 2, 0, 10] ++ [1, 0] ++ [0, 20] ++
  [0, 0, 0, 16] ++ [0, 14, 0] ++ [0, 11] ++ strBytes "example.com"

/-- A record whose ClientHello declares client version 0x0100 (unknown),
followed by the complete, otherwise-valid record `tlsBufA`. -/
def tlsBufC5 : List Nat :=
  [22, 3, 1, 0, 8] ++ [1, 0, 0, 4] ++ [1, 0] ++ [0, 0] ++ tlsBufA

/-- Like `tlsBufA` but the declared extensions-block length (bytes 50-51) is
4, so the declared block ends at offset 56 while the `server_name` bytes
live at offsets 61-71. -/
def tlsBufC10 : List Nat :=
  [22, 3, 1, 0, 66] ++ [1, 0, 0, 62] ++ [3, 3] ++ List.replicate 32 7 ++
  [0] ++ [0, 2, 0, 53] ++ [1, 0] ++ [0, 4] ++
  [0, 0, 0, 16] ++ [0, 14, 0] ++ [0, 11] ++ strBytes "example.com"

/-- A TCP packet carrying `tlsBufA`. -/
def pktA : Packet := ⟨72, 72, 6, tlsBufA⟩

/-- A TCP packet carrying `tlsBufB`. -/
def pktB : Packet := ⟨70, 70, 6, tlsBufB⟩

/-- A TCP packet carrying `tlsBufBadRewind`. -/
def pktBadRewind : Packet := ⟨72, 72, 6, tlsBufBadRewind⟩

/-- A TCP packet with a request cookie line `PHPSESSID=aaa`. -/
def c6Pkt1 : Packet :=
  ⟨90, 38, 6, strBytes "GET / HTTP/1.1\nCookie: PHPSESSID=aaa\n\n"⟩

/-- A TCP packet with a response `Set-Cookie` line carrying the same
string `PHPSESSID=aaa`. -/
def c6Pkt2 : Packet :=
  ⟨95, 43, 6, strBytes "HTTP/1.1 200 OK\nSet-Cookie: PHPSESSID=aaa\n\n"⟩

/-- The flow state after delivering `c6Pkt1`, `c6Pkt2` and then `c6Pkt1`
again (the third packet repeats an already-seen cookie record). -/
def c6Final : RustExample :=
  claim_l4_info (claim_l4_info (claim_l4_info RustExample.new c6Pkt1) c6Pkt2)
    c6Pkt1

/-! ## The claims -/

/-- C9: in the per-packet hook, `slr.rewind(pos).unwrap()` never panics: for
every payload, rewinding the reader left by `extract_phpid` to its own
current position succeeds, because the cursor invariant offset ≤ slice
length is preserved by the extractor. -/
theorem c9_rewind_unwrap_safe (payload : List Nat) :
    ((extract_phpid (SliceReader.new payload)).2.rewind
      (extract_phpid (SliceReader.new payload)).2.pos).isSome = true := by
  obtain ⟨hwf, -⟩ :=
    extract_phpid_wf (SliceReader.new payload) (SliceReader.new_wf payload)
  rw [SliceReader.rewind_self hwf]
  rfl

/-- C2: for every byte buffer, both extractors keep the cursor inside the
slice bounds (final offset ≤ payload length, and every intermediate read is
bounds-checked by construction), and a returned SNI hostname is always a
complete, fully in-bounds contiguous subslice of the payload that decodes as
valid UTF-8 — no partial or garbled hostname is ever returned. -/
theorem c2_extractors_in_bounds_no_partial_sni (payload name : List Nat) :
    (extract_phpid (SliceReader.new payload)).2.pos ≤ payload.length ∧
    (extract_tls_sni (SliceReader.new payload)).2.pos ≤ payload.length ∧
    ((extract_tls_sni (SliceReader.new payload)).1 = some name →
      ∃ i, i + name.length ≤ payload.length ∧
        name = (payload.drop i).take name.length ∧ isValidUtf8 name = true) := by
  have h0 := SliceReader.new_wf payload
  obtain ⟨hw1, hs1⟩ := extract_phpid_wf (SliceReader.new payload) h0
  obtain ⟨hw2, hs2, hf⟩ := extract_tls_sni_spec (SliceReader.new payload) h0
  refine ⟨?_, ?_, ?_⟩
  · have := hw1
    rw [SliceReader.wf, hs1] at this
    exact this
  · have := hw2
    rw [SliceReader.wf, hs2] at this
    exact this
  · intro hn
    have := hf name hn
    rwa [sniFromSlice, show (SliceReader.new payload).slice = payload from rfl]
      at this

/-- Witness for C2 at a concrete ClientHello carrying SNI `example.com`. -/
theorem c2_witness :
    (extract_phpid (SliceReader.new tlsBufA)).2.pos ≤ tlsBufA.length ∧
    (extract_tls_sni (SliceReader.new tlsBufA)).2.pos ≤ tlsBufA.length ∧
    ∃ i, i + (strBytes "example.com").length ≤ tlsBufA.length ∧
      strBytes "example.com"
        = (tlsBufA.drop i).take (strBytes "example.com").length ∧
      isValidUtf8 (strBytes "example.com") = true := by
  have h := c2_extractors_in_bounds_no_partial_sni tlsBufA
    (strBytes "example.com")
  exact ⟨h.1, h.2.1, h.2.2 (by decide)⟩

/-- C8: the first emitted column is the byte counter divided by the flow
duration when the duration is positive, and exactly 0 for a zero duration
(the division branch is not taken). -/
theorem c8_throughput_zero_duration (self : RustExample) (flow : Flow) :
    (0 < flow.duration →
      (on_flow_terminate self flow).head? =
        some (Out.num ((self.byte_count : ℚ) / flow.duration))) ∧
    (flow.duration = 0 →
      (on_flow_terminate self flow).head? = some (Out.num 0)) := by
  constructor
  · intro h
    unfold on_flow_terminate
    rw [if_pos h]
    rfl
  · intro h
    unfold on_flow_terminate
    rw [if_neg (by rw [h]; exact lt_irrefl 0)]
    rfl

/-- Witness for C8 with byte counter 10 and durations 2 and 0. -/
theorem c8_witness :
    (on_flow_terminate ⟨10, [], []⟩ ⟨2⟩).head? =
      some (Out.num (((10 : Nat) : ℚ) / 2)) ∧
    (on_flow_terminate ⟨10, [], []⟩ ⟨0⟩).head? = some (Out.num 0) :=
  ⟨(c8_throughput_zero_duration ⟨10, [], []⟩ ⟨2⟩).1 (by norm_num),
   (c8_throughput_zero_duration ⟨10, [], []⟩ ⟨0⟩).2 rfl⟩

/-- C4: the SNI field is written at most once — once `tls_sni` is non-empty,
processing any further packet leaves it unchanged. -/
theorem c4_sni_written_at_most_once (self : RustExample) (packet : Packet)
    (h : self.tls_sni ≠ []) :
    (claim_l4_info self packet).tls_sni = self.tls_sni := by
  unfold claim_l4_info
  dsimp only
  by_cases hc : 0 < packet.snap_l7_len ∧ packet.l4_type = L4Type.TCP
  · rw [if_pos hc]
    have hne : ¬ self.tls_sni.length = 0 := by
      simpa [List.length_eq_zero] using h
    cases hr : (httpThenRewind packet.l7).1 with
    | none =>
      dsimp only
      rw [if_neg hne]
    | some sc_id =>
      dsimp only
      rw [if_neg hne]
  · rw [if_neg hc]

/-- Witness for C4: two packets in the same flow carrying the different
SNIs `example.com` and `other.org`; after the second packet the recorded
SNI is still the first packet's value. -/
theorem c4_witness :
    (claim_l4_info (claim_l4_info RustExample.new pktA) pktB).tls_sni
      = (claim_l4_info RustExample.new pktA).tls_sni ∧
    (claim_l4_info RustExample.new pktA).tls_sni = strBytes "example.com" ∧
    (extract_tls_sni (SliceReader.new tlsBufB)).1
      = some (strBytes "other.org") :=
  ⟨c4_sni_written_at_most_once (claim_l4_info RustExample.new pktA) pktB
     (by decide),
   by decide, by decide⟩

/-- C7: a failed extraction attempt never corrupts accumulated flow state:
the byte counter always receives exactly the normal per-packet increment,
a failed cookie extraction leaves the cookie set unchanged, and a failed SNI
extraction leaves the recorded SNI unchanged. -/
theorem c7_failed_attempt_preserves_state (self : RustExample)
    (packet : Packet) :
    (claim_l4_info self packet).byte_count
        = (self.byte_count + packet.packet_raw_len) % 2 ^ 64 ∧
    ((extract_phpid (SliceReader.new packet.l7)).1 = none →
      (claim_l4_info self packet).php_ids = self.php_ids) ∧
    ((extract_tls_sni (httpThenRewind packet.l7).2).1 = none →
      (claim_l4_info self packet).tls_sni = self.tls_sni) := by
  unfold claim_l4_info
  dsimp only
  by_cases hc : 0 < packet.snap_l7_len ∧ packet.l4_type = L4Type.TCP
  · rw [if_pos hc]
    refine ⟨?_, ?_, ?_⟩
    · cases hr : (httpThenRewind packet.l7).1 with
      | none =>
        dsimp only
        by_cases hz : self.tls_sni.length = 0
        · rw [if_pos hz]
          cases ht : (extract_tls_sni (httpThenRewind packet.l7).2).1 with
          | none => rfl
          | some sni => rfl
        · rw [if_neg hz]
      | some sc_id =>
        dsimp only
        by_cases hz : self.tls_sni.length = 0
        · rw [if_pos hz]
          cases ht : (extract_tls_sni (httpThenRewind packet.l7).2).1 with
          | none => rfl
          | some sni => rfl
        · rw [if_neg hz]
    · intro hnone
      have hr : (httpThenRewind packet.l7).1 = none := hnone
      rw [hr]
      dsimp only
      by_cases hz : self.tls_sni.length = 0
      · rw [if_pos hz]
        cases ht : (extract_tls_sni (httpThenRewind packet.l7).2).1 with
        | none => rfl
        | some sni => rfl
      · rw [if_neg hz]
    · intro hnone
      cases hr : (httpThenRewind packet.l7).1 with
      | none =>
        dsimp only
        by_cases hz : self.tls_sni.length = 0
        · rw [if_pos hz]
          rw [hnone]
        · rw [if_neg hz]
      | some sc_id =>
        dsimp only
        by_cases hz : self.tls_sni.length = 0
        · rw [if_pos hz]
          rw [hnone]
        · rw [if_neg hz]
  · rw [if_neg hc]
    exact ⟨rfl, fun _ => rfl, fun _ => rfl⟩

/-- Witness for C7: a packet whose payload defeats both extractors, applied
to a flow state with existing cookie and SNI values. -/
theorem c7_witness :
    (claim_l4_info ⟨5, [(true, strBytes "old")], strBytes "kept.example"⟩
        ⟨9, 5, 6, strBytes "HELLO"⟩).byte_count = (5 + 9) % 2 ^ 64 ∧
    (claim_l4_info ⟨5, [(true, strBytes "old")], strBytes "kept.example"⟩
        ⟨9, 5, 6, strBytes "HELLO"⟩).php_ids = [(true, strBytes "old")] ∧
    (claim_l4_info ⟨5, [(true, strBytes "old")], strBytes "kept.example"⟩
        ⟨9, 5, 6, strBytes "HELLO"⟩).tls_sni = strBytes "kept.example" := by
  have h := c7_failed_attempt_preserves_state
    ⟨5, [(true, strBytes "old")], strBytes "kept.example"⟩
    ⟨9, 5, 6, strBytes "HELLO"⟩
  exact ⟨h.1, h.2.1 (by decide), h.2.2 (by decide)⟩

/-- C1: the code comment and the spec say the reader is rewound to the
payload start before the TLS extractor runs, but `rewind` is an absolute
seek and its argument is the reader's own current position, so the call is a
no-op: on a payload whose first `\n` is at index 47 the TLS extractor runs
from offset 48, misses the SNI `example.com` that a parse from offset 0
finds, and the flow records no SNI. -/
theorem c1_tls_cursor_not_payload_start :
    (httpThenRewind tlsBufBadRewind).2.pos = 48 ∧
    (claim_l4_info RustExample.new pktBadRewind).tls_sni = [] ∧
    (extract_tls_sni (SliceReader.new tlsBufBadRewind)).1
      = some (strBytes "example.com") := by
  refine ⟨by decide, by decide, by decide⟩

theorem insertSet_nodup (x : Bool × List Nat) (l : List (Bool × List Nat))
    (h : l.Nodup) : (insertSet x l).Nodup := by
  unfold insertSet
  by_cases hx : x ∈ l
  · rw [if_pos hx]; exact h
  · rw [if_neg hx]; exact List.nodup_cons.mpr ⟨hx, h⟩

/-- C6: cookie records are deduplicated on the full (origin, value) pair:
the cookie set stays duplicate-free across packets, the emitted count prefix
is the number of distinct records, and in the concrete three-packet flow
(`PHPSESSID=aaa` from a request `Cookie`, the same string from a response
`Set-Cookie`, then a repeat of the first) both pairs are present and the
count prefix is exactly 2. -/
theorem c6_cookie_dedup_full_pair :
    (∀ (st : RustExample) (packet : Packet), st.php_ids.Nodup →
      (claim_l4_info st packet).php_ids.Nodup) ∧
    (∀ (st : RustExample) (flow : Flow),
      (on_flow_terminate st flow)[1]? = some (Out.u32 st.php_ids.length)) ∧
    c6Final.php_ids.length = 2 ∧
    (false, strBytes "aaa") ∈ c6Final.php_ids ∧
    (true, strBytes "aaa") ∈ c6Final.php_ids ∧
    (on_flow_terminate c6Final ⟨1⟩)[1]? = some (Out.u32 2) := by
  refine ⟨?_, ?_, by decide, by decide, by decide, by decide⟩
  · intro st packet h
    unfold claim_l4_info
    dsimp only
    by_cases hc : 0 < packet.snap_l7_len ∧ packet.l4_type = L4Type.TCP
    · rw [if_pos hc]
      cases hr : (httpThenRewind packet.l7).1 with
      | none =>
        dsimp only
        by_cases hz : st.tls_sni.length = 0
        · rw [if_pos hz]
          cases ht : (extract_tls_sni (httpThenRewind packet.l7).2).1 with
          | none => exact h
          | some sni => exact h
        · rw [if_neg hz]; exact h
      | some sc_id =>
        dsimp only
        by_cases hz : st.tls_sni.length = 0
        · rw [if_pos hz]
          cases ht : (extract_tls_sni (httpThenRewind packet.l7).2).1 with
          | none => exact insertSet_nodup sc_id st.php_ids h
          | some sni => exact insertSet_nodup sc_id st.php_ids h
        · rw [if_neg hz]; exact insertSet_nodup sc_id st.php_ids h
    · rw [if_neg hc]; exact h
  · intro st flow
    unfold on_flow_terminate
    by_cases hd : 0 < flow.duration
    · rw [if_pos hd]; simp
    · rw [if_neg hd]; simp

/-- Witness for C6: the duplicate-freedom hypothesis discharged on the empty
initial flow state and the first concrete packet. -/
theorem c6_witness :
    (claim_l4_info RustExample.new c6Pkt1).php_ids.Nodup :=
  c6_cookie_dedup_full_pair.1 RustExample.new c6Pkt1 (by decide)

/-- C10: the TLS extension loop is bounded only by `slr.pos() <
extensions_end` checks and never validates an element's declared length
against the enclosing block: on `tlsBufC10` the extensions-block length
declared at bytes 50-51 is 4 (so the declared block spans offsets 52-55),
yet the extractor still reads and returns the 11 `server_name` bytes at
offsets 61-71 because the underlying slice has enough bytes. -/
theorem c10_extension_length_not_bounded :
    (extract_tls_sni (SliceReader.new tlsBufC10)).1
      = some (strBytes "example.com") ∧
    (tlsBufC10.drop 50).take 2 = [0, 4] ∧
    strBytes "example.com" = (tlsBufC10.drop 61).take 11 ∧
    tlsBufC10.length = 72 := by
  refine ⟨by decide, by decide, by decide, by decide⟩

/-- C5: an unknown 2-byte TLS version aborts the whole packet.  The record
loop returns nothing as soon as the record version bytes map to `UNKNOWN`,
whatever the rest of the buffer holds; and on the concrete buffer whose
ClientHello requests version 0x0100, parsing stops without continuing to the
second, otherwise-valid record (which alone yields `example.com`). -/
theorem c5_unknown_version_aborts_packet :
    (∀ (t b0 b1 : Nat) (rest : List Nat),
      TlsVersion.from_u16 (256 * b0 + b1) = TlsVersion.UNKNOWN →
      (extract_tls_sni (SliceReader.new (t :: b0 :: b1 :: rest))).1 = none) ∧
    (extract_tls_sni (SliceReader.new tlsBufC5)).1 = none ∧
    (extract_tls_sni (SliceReader.new tlsBufA)).1
      = some (strBytes "example.com") := by
  refine ⟨?_, by decide, by decide⟩
  intro t b0 b1 rest hv
  show (recordLoop ((t :: b0 :: b1 :: rest).length + 1)
      (SliceReader.new (t :: b0 :: b1 :: rest))).1 = none
  have h8 : (SliceReader.new (t :: b0 :: b1 :: rest)).readU8
      = some (t, ⟨t :: b0 :: b1 :: rest, 1⟩) := rfl
  have h16 : (SliceReader.mk (t :: b0 :: b1 :: rest) 1).readU16
      = some (256 * b0 + b1, ⟨t :: b0 :: b1 :: rest, 3⟩) := rfl
  unfold recordLoop
  rw [h8]
  dsimp only
  rw [h16]
  dsimp only
  rw [if_pos hv]

/-- Witness for C5 at the record header bytes `[22, 1, 0]` (version word
0x0100, which is not one of the four supported versions). -/
theorem c5_witness :
    TlsVersion.from_u16 (256 * 1 + 0) = TlsVersion.UNKNOWN ∧
    (extract_tls_sni (SliceReader.new [22, 1, 0])).1 = none :=
  ⟨by decide, c5_unknown_version_aborts_packet.1 22 1 0 [] (by decide)⟩

theorem lineSplit_append (line tail : List Nat) (h : (10 : Nat) ∉ line) :
    lineSplit (line ++ 10 :: tail) = some (line, tail) := by
  induction line with
  | nil => simp [lineSplit]
  | cons x t ih =>
    have hx : x ≠ 10 := by
      intro hx
      exact h (by rw [hx]; exact List.mem_cons_self 10 t)
    have ht : (10 : Nat) ∉ t := fun hm => h (List.mem_cons_of_mem x hm)
    rw [List.cons_append]
    unfold lineSplit
    rw [if_neg hx, ih ht]
    rfl

theorem readLine_of_drop {s : SliceReader} {line tail : List Nat}
    (h : s.slice.drop s.pos = line ++ 10 :: tail) (hnl : (10 : Nat) ∉ line) :
    s.readLine = some (line, ⟨s.slice, s.pos + line.length + 1⟩) := by
  unfold SliceReader.readLine
  rw [h, lineSplit_append line tail hnl]

/-- C3: only the first `Cookie: `/`Set-Cookie: ` header line is inspected.
For every HTTP payload whose first line is a request/response start and
whose first cookie header line contains no `PHPSESSID` piece, the extractor
returns nothing, whatever the remaining bytes `rest` hold — in particular a
later header line containing `PHPSESSID` is never reached. -/
theorem c3_first_cookie_line_only
    (first cookieLine rest : List Nat) (sc : Bool) (n : Nat)
    (hf10 : (10 : Nat) ∉ first)
    (hfirst : ((strBytes "GET ").isPrefixOf first
        || (strBytes "POST ").isPrefixOf first
        || (strBytes "HTTP/").isPrefixOf first) = true)
    (hc10 : (10 : Nat) ∉ cookieLine)
    (hlen : ¬ (trimBytes cookieLine).length = 0)
    (hhdr : cookieHdr (trimBytes cookieLine) = some (sc, n))
    (hscan : scanCookies (splitSemi ((trimBytes cookieLine).drop n)) = none) :
    (extract_phpid (SliceReader.new
      (first ++ 10 :: (cookieLine ++ 10 :: rest)))).1 = none := by
  have h1 : (SliceReader.new
      (first ++ 10 :: (cookieLine ++ 10 :: rest))).readLine
      = some (first, ⟨first ++ 10 :: (cookieLine ++ 10 :: rest),
          0 + first.length + 1⟩) :=
    readLine_of_drop rfl hf10
  unfold extract_phpid
  rw [h1]
  dsimp only
  rw [if_pos hfirst]
  have hdrop : (first ++ 10 :: (cookieLine ++ 10 :: rest)).drop
      (0 + first.length + 1) = cookieLine ++ 10 :: rest := by
    have hassoc : first ++ 10 :: (cookieLine ++ 10 :: rest)
        = (first ++ [10]) ++ (cookieLine ++ 10 :: rest) := by
      simp
    rw [hassoc,
      show 0 + first.length + 1 = (first ++ [10]).length by simp,
      List.drop_left]
  have h2 : (SliceReader.mk (first ++ 10 :: (cookieLine ++ 10 :: rest))
      (0 + first.length + 1)).readLine
      = some (cookieLine, ⟨first ++ 10 :: (cookieLine ++ 10 :: rest),
          0 + first.length + 1 + cookieLine.length + 1⟩) :=
    readLine_of_drop hdrop hc10
  unfold phpidLoop
  rw [h2]
  dsimp only
  rw [if_neg hlen, hhdr]
  dsimp only
  rw [hscan]

/-- Witness for C3: first line `GET / HTTP/1.1`, first cookie header
`Cookie: a=b`, and a later header line that does contain a `PHPSESSID` —
the extractor still returns nothing. -/
theorem c3_witness :
    (extract_phpid (SliceReader.new (strBytes "GET / HTTP/1.1" ++ 10 ::
      (strBytes "Cookie: a=b" ++ 10 ::
        strBytes "Cookie: PHPSESSID=zzz\n\n")))).1 = none :=
  c3_first_cookie_line_only (strBytes "GET / HTTP/1.1")
    (strBytes "Cookie: a=b") (strBytes "Cookie: PHPSESSID=zzz\n\n") false 8
    (by decide) (by decide) (by decide) (by decide) (by decide) (by decide)
